import Mathlib

set_option maxHeartbeats 1000000
set_option maxRecDepth 100000

/-!
Verification of the DCR (Data Contamination Risk) fuzzy-inference engine
(`src/core/fuzzy_system.py`) and contamination analyzer
(`src/core/dcr_calculator.py`).  Real-number arithmetic is modelled with `ℚ`.
-/

/-- Python `max` / `np.fmax` on scalars, written so that it evaluates in the kernel. -/
def qmax (a b : ℚ) : ℚ := if a ≤ b then b else a

/-- Python `min` / `np.fmin` on scalars, written so that it evaluates in the kernel. -/
def qmin (a b : ℚ) : ℚ := if a ≤ b then a else b

/-- Input sanitization `max(0.0, min(float(v), 1.0))` from `calculate_dcr`. -/
def clamp01 (v : ℚ) : ℚ := qmax 0 (qmin v 1)

/-- Round half to even to an integer, modelling Python's `round` on exact values. -/
def roundHalfEven (q : ℚ) : ℤ :=
  if q - ⌊q⌋ < 1/2 then ⌊q⌋
  else if 1/2 < q - ⌊q⌋ then ⌊q⌋ + 1
  else if ⌊q⌋ % 2 = 0 then ⌊q⌋ else ⌊q⌋ + 1

/-- Python `round(q, n)`: round to `n` decimal places, ties to even. -/
def roundQ (n : ℕ) (q : ℚ) : ℚ := (roundHalfEven (q * 10 ^ n) : ℚ) / 10 ^ n

/-- `np.mean` of a list of scalars. -/
def npMean (l : List ℚ) : ℚ := l.sum / (l.length : ℚ)

/-- `self.x = np.linspace(0, 1, 101)`: the sampled output domain. -/
def grid : List ℚ := (List.range 101).map (fun i => (i : ℚ) / 100)

/-- `skfuzzy.trapmf` with control points `a ≤ b ≤ c ≤ d`, evaluated at one point:
zero outside `[a, d]`, a rising ramp on `[a, b]`, one on `[b, c]`, a falling ramp
on `[c, d]`; a vertical edge (`a = b` or `c = d`) keeps the plateau value `1`. -/
def trapmf (a b c d x : ℚ) : ℚ :=
  if x < a ∨ d < x then 0
  else if x ≤ b then (if a = b then 1 else (x - a) / (b - a))
  else if c ≤ x then (if c = d then 1 else (d - x) / (d - c))
  else 1

/-- `skfuzzy.trimf` with control points `a ≤ b ≤ c`, evaluated at one point. -/
def trimf (a b c x : ℚ) : ℚ :=
  if x = b then 1
  else if a < x ∧ x < b then (x - a) / (b - a)
  else if b < x ∧ x < c then (c - x) / (c - b)
  else 0

/-- Sample a membership function on the 101-point grid, as the skfuzzy
constructors do. -/
def sampleMF (f : ℚ → ℚ) : List ℚ := grid.map f

/-- Input term `Low = fuzz.trapmf(x, [0, 0, 0.1, 0.3])`. -/
def lowMF : List ℚ := sampleMF (trapmf 0 0 (1/10) (3/10))

/-- Input term `Medium = fuzz.trapmf(x, [0.2, 0.4, 0.5, 0.6])`. -/
def mediumMF : List ℚ := sampleMF (trapmf (1/5) (2/5) (1/2) (3/5))

/-- Input term `High = fuzz.trapmf(x, [0.5, 0.8, 1.0, 1.0])`. -/
def highMF : List ℚ := sampleMF (trapmf (1/2) (4/5) 1 1)

/-- Output term `Negligible = fuzz.trapmf(x, [0, 0, 0.1, 0.3])`. -/
def negligibleMF : List ℚ := sampleMF (trapmf 0 0 (1/10) (3/10))

/-- Output term `Minor = fuzz.trimf(x, [0.1, 0.3, 0.5])`. -/
def minorMF : List ℚ := sampleMF (trimf (1/10) (3/10) (1/2))

/-- Output term `Moderate = fuzz.trimf(x, [0.3, 0.5, 0.7])`. -/
def moderateMF : List ℚ := sampleMF (trimf (3/10) (1/2) (7/10))

/-- Output term `Significant = fuzz.trimf(x, [0.5, 0.7, 0.9])`. -/
def significantMF : List ℚ := sampleMF (trimf (1/2) (7/10) (9/10))

/-- Output term `Severe = fuzz.trapmf(x, [0.7, 0.9, 1.0, 1.0])`. -/
def severeMF : List ℚ := sampleMF (trapmf (7/10) (9/10) 1 1)

/-- `skfuzzy.interp_membership(self.x, mf, val)` = `np.interp` of the sampled
array on the uniform grid with step `1/100`, for `val` already clamped to
`[0, 1]`. -/
def interp_membership (mf : List ℚ) (v : ℚ) : ℚ :=
  if 1 ≤ v then mf.getD 100 0
  else
    let i : ℕ := (⌊v * 100⌋).toNat
    mf.getD i 0 + (v * 100 - (i : ℚ)) * (mf.getD (i + 1) 0 - mf.getD i 0)

/-- The three fuzzified membership degrees of one input channel. -/
structure FuzzVal where
  low : ℚ
  medium : ℚ
  high : ℚ

/-- Fuzzification of one input value: `max(interp_membership(x, mf, val),
min_memb * 0.1)` for each of the three input terms. -/
def fuzzify (min_memb v : ℚ) : FuzzVal :=
  ⟨qmax (interp_membership lowMF v) (min_memb * (1/10)),
   qmax (interp_membership mediumMF v) (min_memb * (1/10)),
   qmax (interp_membership highMF v) (min_memb * (1/10))⟩

/-- `np.max` of a sampled membership array. -/
def npMax : List ℚ → ℚ
  | [] => 0
  | h :: t => t.foldl qmax h

/-- `FuzzySystem._apply_rules`: five rules, each clipping its consequent term by
the antecedent strength; aggregation by elementwise maximum; then the smoothing
step `aggregated += Negligible * min_memb` when `np.max(aggregated) < 0.06`. -/
def applyRules (f1 f2 f3 f4 : FuzzVal) (min_memb : ℚ) : List ℚ :=
  let rule0 := negligibleMF.map (qmin (qmin (qmin f1.low f2.low) (qmin f3.low f4.low)))
  let ruleSevere := severeMF.map (qmin (qmax f3.high f4.high))
  let ruleSignificant := significantMF.map (qmin (qmax f1.high f2.high))
  let mediumAvg := (f1.medium + f2.medium + f3.medium + f4.medium) / 4
  let ruleModerate := moderateMF.map (qmin mediumAvg)
  let ruleMinor := minorMF.map (qmin (qmax f1.medium f2.low))
  let aggregated :=
    List.zipWith qmax
      (List.zipWith qmax (List.zipWith qmax (List.zipWith qmax rule0 ruleSevere) ruleSignificant)
        ruleModerate)
      ruleMinor
  if npMax aggregated < 3/50 then
    List.zipWith (fun ag ng => ag + ng * min_memb) aggregated negligibleMF
  else aggregated

/-- Modelled from the spec: the centroid defuzzification performed by the
external `skfuzzy.defuzz(x, mfx, 'centroid')` call, `Σ(x_i·y_i) / Σ(y_i)` over
the sampled domain; `none` models the error skfuzzy raises when the total
membership is zero (the zero-denominator case). -/
def defuzzCentroid (xs ys : List ℚ) : Option ℚ :=
  if ys.sum = 0 then none
  else some ((List.zipWith (fun a b => a * b) xs ys).sum / ys.sum)

/-- The `try/except` tail of `calculate_dcr`: on success, clamp the centroid to
`[0, 1]` and round to 4 decimals; on failure, return `round(min_memb, 3)`. -/
def dcrFromAggregated (min_memb : ℚ) (agg : List ℚ) : ℚ :=
  match defuzzCentroid grid agg with
  | some d => roundQ 4 (qmax (qmin d 1) 0)
  | none => roundQ 3 min_memb

/-- `FuzzySystem.calculate_dcr`: clamp the four scores, short-circuit to `0.0`
when their mean is below `0.02`, otherwise fuzzify, apply the rules and
defuzzify, with `min_memb = max(0.001, mean)` as dynamic floor and fallback. -/
def calculate_dcr (s1 s2 s3 s4 : ℚ) : ℚ :=
  let inputs := [clamp01 s1, clamp01 s2, clamp01 s3, clamp01 s4]
  let min_memb := qmax (1/1000) (npMean inputs)
  if npMean inputs < 1/50 then 0
  else
    dcrFromAggregated min_memb
      (applyRules (fuzzify min_memb (clamp01 s1)) (fuzzify min_memb (clamp01 s2))
        (fuzzify min_memb (clamp01 s3)) (fuzzify min_memb (clamp01 s4)) min_memb)

/-- Modelled from the spec: `_apply_rules` with the smoothing threshold supplied
as explicit configuration instead of the hardcoded `0.06`. -/
def applyRulesConfigured (smoothing : ℚ) (f1 f2 f3 f4 : FuzzVal) (min_memb : ℚ) : List ℚ :=
  let rule0 := negligibleMF.map (qmin (qmin (qmin f1.low f2.low) (qmin f3.low f4.low)))
  let ruleSevere := severeMF.map (qmin (qmax f3.high f4.high))
  let ruleSignificant := significantMF.map (qmin (qmax f1.high f2.high))
  let mediumAvg := (f1.medium + f2.medium + f3.medium + f4.medium) / 4
  let ruleModerate := moderateMF.map (qmin mediumAvg)
  let ruleMinor := minorMF.map (qmin (qmax f1.medium f2.low))
  let aggregated :=
    List.zipWith qmax
      (List.zipWith qmax (List.zipWith qmax (List.zipWith qmax rule0 ruleSevere) ruleSignificant)
        ruleModerate)
      ruleMinor
  if npMax aggregated < smoothing then
    List.zipWith (fun ag ng => ag + ng * min_memb) aggregated negligibleMF
  else aggregated

/-- Modelled from the spec: the engine with the three thresholds
(`negligible_threshold`, `smoothing_threshold`, `min_membership` floor) supplied
as explicit constructor configuration, as sections 6 and 9 of the spec require. -/
def calculate_dcr_configured (negligible smoothing minFloor : ℚ) (s1 s2 s3 s4 : ℚ) : ℚ :=
  let inputs := [clamp01 s1, clamp01 s2, clamp01 s3, clamp01 s4]
  let min_memb := qmax minFloor (npMean inputs)
  if npMean inputs < negligible then 0
  else
    dcrFromAggregated min_memb
      (applyRulesConfigured smoothing (fuzzify min_memb (clamp01 s1))
        (fuzzify min_memb (clamp01 s2)) (fuzzify min_memb (clamp01 s3))
        (fuzzify min_memb (clamp01 s4)) min_memb)

/-- `DCRCalculator.calculate_adjusted_accuracy`: `raw_accuracy * (1 - dcr_factor)`. -/
def calculate_adjusted_accuracy (raw_accuracy dcr_factor : ℚ) : ℚ :=
  raw_accuracy * (1 - dcr_factor)

/-- `DCRCalculator.calculate_delta`: `abs(current_adjusted - baseline_adjusted)`. -/
def calculate_delta (baseline_adjusted current_adjusted : ℚ) : ℚ :=
  |current_adjusted - baseline_adjusted|

/-- `DCRCalculator.calculate_average_error`: mean of pairwise absolute errors,
`0.0` when either list is empty. -/
def calculate_average_error (ground_truths predictions : List ℚ) : ℚ :=
  if ground_truths = [] ∨ predictions = [] then 0
  else
    let errors := (ground_truths.zip predictions).map (fun p => |p.1 - p.2|)
    errors.sum / (errors.length : ℚ)

/-- `DCRCalculator.calculate_correlation`: the sentinel `(0.0, 1.0)` below two
samples, otherwise delegate to `scipy.stats.pearsonr`, an external collaborator
modelled as a function parameter. -/
def calculate_correlation (pearsonr : List ℚ → List ℚ → ℚ × ℚ)
    (dcr_values accuracy_values : List ℚ) : ℚ × ℚ :=
  if dcr_values.length < 2 ∨ accuracy_values.length < 2 then (0, 1)
  else pearsonr dcr_values accuracy_values

/-- One experimental data row `(bdc_level, model, test1..test4, accuracy)`. -/
structure Row where
  bdc_level : ℤ
  model : String
  t1 : ℚ
  t2 : ℚ
  t3 : ℚ
  t4 : ℚ
  acc : ℚ
deriving Inhabited, DecidableEq

/-- One entry of the `results` list built by `process_experiment_data`. -/
structure ResultRecord where
  model : String
  bdc_level : ℤ
  dcr : ℚ
  raw_acc : ℚ
  adj_acc : ℚ
  delta : ℚ
deriving Inhabited, DecidableEq

/-- The mutable accumulators of `process_experiment_data`: `results`, the
`ground_truths` dict (modelled as an association list whose most recent binding
is found first, like Python dict assignment), and the four parallel lists. -/
structure ProcState where
  results : List ResultRecord
  ground_truths : List (String × ℚ)
  gt_list : List ℚ
  pred_list : List ℚ
  dcr_values : List ℚ
  raw_acc_values : List ℚ

/-- Lookup in the modelled `ground_truths` dict (most recent binding wins). -/
def lookupGT : List (String × ℚ) → String → Option ℚ
  | [], _ => none
  | (k, v) :: rest, m => if k = m then some v else lookupGT rest m

/-- The body of the `for row in data` loop of `process_experiment_data`. -/
def processRow (st : ProcState) (row : Row) : ProcState :=
  let dcr := calculate_dcr row.t1 row.t2 row.t3 row.t4
  let adj_acc := calculate_adjusted_accuracy row.acc dcr
  if row.bdc_level = 0 then
    ⟨st.results ++ [⟨row.model, row.bdc_level, dcr, row.acc, adj_acc, 0⟩],
     (row.model, adj_acc) :: st.ground_truths,
     st.gt_list, st.pred_list,
     st.dcr_values ++ [dcr], st.raw_acc_values ++ [row.acc]⟩
  else
    match lookupGT st.ground_truths row.model with
    | some b =>
        ⟨st.results ++ [⟨row.model, row.bdc_level, dcr, row.acc, adj_acc, calculate_delta b adj_acc⟩],
         st.ground_truths,
         st.gt_list ++ [b], st.pred_list ++ [adj_acc],
         st.dcr_values ++ [dcr], st.raw_acc_values ++ [row.acc]⟩
    | none =>
        ⟨st.results ++ [⟨row.model, row.bdc_level, dcr, row.acc, adj_acc, 0⟩],
         st.ground_truths,
         st.gt_list, st.pred_list,
         st.dcr_values ++ [dcr], st.raw_acc_values ++ [row.acc]⟩

/-- The dictionary returned by `process_experiment_data`. -/
structure ProcOutput where
  results : List ResultRecord
  average_error : ℚ
  correlation : ℚ
  p_value : ℚ

/-- The empty accumulators at the top of `process_experiment_data`. -/
def initState : ProcState := ⟨[], [], [], [], [], []⟩

/-- `DCRCalculator.process_experiment_data`. -/
def process_experiment_data (pearsonr : List ℚ → List ℚ → ℚ × ℚ)
    (data : List Row) : ProcOutput :=
  let st := data.foldl processRow initState
  ⟨st.results,
   calculate_average_error st.gt_list st.pred_list,
   (calculate_correlation pearsonr st.dcr_values st.raw_acc_values).1,
   (calculate_correlation pearsonr st.dcr_values st.raw_acc_values).2⟩

/-- The DCR the engine assigns to a row's four scores. -/
def rowDCR (r : Row) : ℚ := calculate_dcr r.t1 r.t2 r.t3 r.t4

/-- The adjusted accuracy of a row. -/
def rowAdj (r : Row) : ℚ := calculate_adjusted_accuracy r.acc (rowDCR r)

/-- Whether a row is a baseline (`bdc_level == 0`) row of model `m`. -/
def isBaselineFor (m : String) (r : Row) : Bool :=
  r.bdc_level == 0 && r.model == m

/-- The baseline adjusted accuracy of model `m` after the prefix `pre` of rows:
the adjusted accuracy of the most recent `bdc_level == 0` row of `m` in `pre`. -/
def lastBaseline (pre : List Row) (m : String) : Option ℚ :=
  ((pre.filter (isBaselineFor m)).map rowAdj).getLast?

/-- The delta the spec assigns to row `r` arriving after the prefix `pre`. -/
def specDelta (pre : List Row) (r : Row) : ℚ :=
  if r.bdc_level = 0 then 0
  else
    match lastBaseline pre r.model with
    | some b => |rowAdj r - b|
    | none => 0

/-- The result record the spec assigns to row `r` arriving after prefix `pre`. -/
def mkRecord (pre : List Row) (r : Row) : ResultRecord :=
  ⟨r.model, r.bdc_level, rowDCR r, r.acc, rowAdj r, specDelta pre r⟩

/-- Spec-side reference list of result records, prefix-indexed. -/
def specResultsAux : List Row → List Row → List ResultRecord
  | _, [] => []
  | pre, r :: rs => mkRecord pre r :: specResultsAux (pre ++ [r]) rs

/-- Spec-side reference list of `(baseline, current)` error pairs: one pair for
each contaminated row whose model already has a baseline, pooled across models. -/
def specPairsAux : List Row → List Row → List (ℚ × ℚ)
  | _, [] => []
  | pre, r :: rs =>
      (if r.bdc_level = 0 then []
       else
         match lastBaseline pre r.model with
         | some b => [(b, rowAdj r)]
         | none => []) ++ specPairsAux (pre ++ [r]) rs

/-- A trivial stand-in for the external `pearsonr`, used in concrete witnesses. -/
def pzero : List ℚ → List ℚ → ℚ × ℚ := fun _ _ => (0, 1)

/-- Concrete two-row dataset used by witnesses. -/
def dataW : List Row := [⟨0, "A", 0, 0, 0, 0, 80⟩, ⟨1, "A", 0, 0, 0, 0, 70⟩]

/-! ## Basic bounds -/

lemma qmax_le {a b c : ℚ} (ha : a ≤ c) (hb : b ≤ c) : qmax a b ≤ c := by
  unfold qmax; split_ifs <;> assumption

lemma le_qmax_left (a b : ℚ) : a ≤ qmax a b := by
  unfold qmax; split_ifs with h
  · exact h
  · exact le_refl a

lemma le_qmax_right (a b : ℚ) : b ≤ qmax a b := by
  unfold qmax; split_ifs with h
  · exact le_refl b
  · linarith

lemma qmin_le_right (a b : ℚ) : qmin a b ≤ b := by
  unfold qmin; split_ifs with h
  · exact h
  · exact le_refl b

lemma clamp01_nonneg (v : ℚ) : 0 ≤ clamp01 v := le_qmax_left 0 (qmin v 1)

lemma clamp01_le_one (v : ℚ) : clamp01 v ≤ 1 :=
  qmax_le (by norm_num) (qmin_le_right v 1)

lemma roundHalfEven_nonneg {q : ℚ} (h : 0 ≤ q) : 0 ≤ roundHalfEven q := by
  have hf : (0 : ℤ) ≤ ⌊q⌋ := Int.floor_nonneg.mpr h
  unfold roundHalfEven
  split_ifs <;> omega

lemma roundHalfEven_le {q : ℚ} {B : ℤ} (h : q ≤ B) : roundHalfEven q ≤ B := by
  have hfB : ⌊q⌋ ≤ B := by
    have := Int.floor_le_floor h
    simpa using this
  have hfq : (⌊q⌋ : ℚ) ≤ q := Int.floor_le q
  unfold roundHalfEven
  split_ifs with h1 h2 h3
  · exact hfB
  · have hq : (⌊q⌋ : ℚ) + 1/2 ≤ q := by linarith
    have hlt : (⌊q⌋ : ℚ) < (B : ℚ) := by
      have : (q : ℚ) ≤ (B : ℚ) := h
      linarith
    have : ⌊q⌋ < B := by exact_mod_cast hlt
    omega
  · exact hfB
  · have hq : (⌊q⌋ : ℚ) + 1/2 ≤ q := by push_neg at h1; linarith
    have hlt : (⌊q⌋ : ℚ) < (B : ℚ) := by linarith
    have : ⌊q⌋ < B := by exact_mod_cast hlt
    omega

lemma roundQ_mem_unit {n : ℕ} {q : ℚ} (h0 : 0 ≤ q) (h1 : q ≤ 1) :
    0 ≤ roundQ n q ∧ roundQ n q ≤ 1 := by
  unfold roundQ
  have hp : (0 : ℚ) < 10 ^ n := by positivity
  have hlo : 0 ≤ roundHalfEven (q * 10 ^ n) := roundHalfEven_nonneg (by positivity)
  have hhi : roundHalfEven (q * 10 ^ n) ≤ ((10 : ℤ) ^ n) := by
    apply roundHalfEven_le
    push_cast
    nlinarith
  constructor
  · apply div_nonneg _ hp.le
    exact_mod_cast hlo
  · rw [div_le_one hp]
    calc (roundHalfEven (q * 10 ^ n) : ℚ) ≤ (((10 : ℤ) ^ n : ℤ) : ℚ) := by exact_mod_cast hhi
      _ = 10 ^ n := by push_cast; ring

lemma dcrFromAggregated_mem_unit {mm : ℚ} (h0 : 0 ≤ mm) (h1 : mm ≤ 1) (agg : List ℚ) :
    0 ≤ dcrFromAggregated mm agg ∧ dcrFromAggregated mm agg ≤ 1 := by
  unfold dcrFromAggregated
  cases hd : defuzzCentroid grid agg with
  | none => exact roundQ_mem_unit h0 h1
  | some d =>
      exact roundQ_mem_unit (le_qmax_right _ 0)
        (qmax_le (qmin_le_right d 1) (by norm_num))

lemma npMean_four_mem_unit {a b c d : ℚ}
    (ha : 0 ≤ a ∧ a ≤ 1) (hb : 0 ≤ b ∧ b ≤ 1) (hc : 0 ≤ c ∧ c ≤ 1) (hd : 0 ≤ d ∧ d ≤ 1) :
    0 ≤ npMean [a, b, c, d] ∧ npMean [a, b, c, d] ≤ 1 := by
  unfold npMean
  simp only [List.sum_cons, List.sum_nil, List.length_cons, List.length_nil]
  norm_num
  constructor
  · linarith [ha.1, hb.1, hc.1, hd.1]
  · linarith [ha.2, hb.2, hc.2, hd.2]

/-- C1: for all four rational inputs (clamped internally, never rejected), the
DCR returned by `calculate_dcr` lies in `[0, 1]`, on the successful
centroid path and on the fallback path alike. -/
theorem calculate_dcr_mem_unit_interval (s1 s2 s3 s4 : ℚ) :
    0 ≤ calculate_dcr s1 s2 s3 s4 ∧ calculate_dcr s1 s2 s3 s4 ≤ 1 := by
  have hm := npMean_four_mem_unit
    ⟨clamp01_nonneg s1, clamp01_le_one s1⟩ ⟨clamp01_nonneg s2, clamp01_le_one s2⟩
    ⟨clamp01_nonneg s3, clamp01_le_one s3⟩ ⟨clamp01_nonneg s4, clamp01_le_one s4⟩
  simp only [calculate_dcr]
  split_ifs with h
  · norm_num
  · exact dcrFromAggregated_mem_unit
      (le_trans hm.1 (le_qmax_right _ _))
      (qmax_le (by norm_num) hm.2) _

/-- C2: whenever the mean of the four clamped inputs is strictly below the
negligible threshold `0.02`, `calculate_dcr` returns exactly `0`, before any
fuzzification. -/
theorem calculate_dcr_negligible_zero (s1 s2 s3 s4 : ℚ)
    (h : (clamp01 s1 + clamp01 s2 + clamp01 s3 + clamp01 s4) / 4 < 1/50) :
    calculate_dcr s1 s2 s3 s4 = 0 := by
  simp only [calculate_dcr]
  rw [if_pos]
  unfold npMean
  simp only [List.sum_cons, List.sum_nil, List.length_cons, List.length_nil]
  norm_num
  linarith

theorem calculate_dcr_negligible_zero_witness :
    (clamp01 0 + clamp01 (1/100) + clamp01 0 + clamp01 0) / 4 < 1/50 ∧
      calculate_dcr 0 (1/100) 0 0 = 0 := by
  have hc0 : clamp01 0 = 0 := by norm_num [clamp01, qmax, qmin]
  have hc1 : clamp01 (1/100) = 1/100 := by norm_num [clamp01, qmax, qmin]
  have h : (clamp01 0 + clamp01 (1/100) + clamp01 0 + clamp01 0) / 4 < 1/50 := by
    rw [hc0, hc1]; norm_num
  exact ⟨h, calculate_dcr_negligible_zero 0 (1/100) 0 0 h⟩

/-- C3: when defuzzification fails — the aggregated membership sums to zero, so
the centroid denominator is zero — the engine returns the deterministic
fallback `round(min_memb, 3)`; and away from the short-circuit,
`calculate_dcr` is exactly this total function applied to
`min_memb = max(0.001, mean)` and the aggregated membership, so no exception
escapes to the caller. -/
theorem defuzz_failure_returns_fallback (mm : ℚ) (agg : List ℚ) (h : agg.sum = 0) :
    dcrFromAggregated mm agg = roundQ 3 mm ∧
      ∀ s1 s2 s3 s4 : ℚ,
        ¬ npMean [clamp01 s1, clamp01 s2, clamp01 s3, clamp01 s4] < 1/50 →
        ∃ aggregated : List ℚ,
          calculate_dcr s1 s2 s3 s4 =
            dcrFromAggregated
              (qmax (1/1000) (npMean [clamp01 s1, clamp01 s2, clamp01 s3, clamp01 s4]))
              aggregated := by
  constructor
  · unfold dcrFromAggregated defuzzCentroid
    rw [if_pos h]
  · intro s1 s2 s3 s4 hge
    refine ⟨applyRules
        (fuzzify (qmax (1/1000) (npMean [clamp01 s1, clamp01 s2, clamp01 s3, clamp01 s4]))
          (clamp01 s1))
        (fuzzify (qmax (1/1000) (npMean [clamp01 s1, clamp01 s2, clamp01 s3, clamp01 s4]))
          (clamp01 s2))
        (fuzzify (qmax (1/1000) (npMean [clamp01 s1, clamp01 s2, clamp01 s3, clamp01 s4]))
          (clamp01 s3))
        (fuzzify (qmax (1/1000) (npMean [clamp01 s1, clamp01 s2, clamp01 s3, clamp01 s4]))
          (clamp01 s4))
        (qmax (1/1000) (npMean [clamp01 s1, clamp01 s2, clamp01 s3, clamp01 s4])), ?_⟩
    simp only [calculate_dcr]
    rw [if_neg hge]

theorem defuzz_failure_returns_fallback_witness :
    ([(0 : ℚ), 0, 0].sum = 0) ∧ dcrFromAggregated (1/2) [0, 0, 0] = roundQ 3 (1/2) := by
  have h : ([(0 : ℚ), 0, 0].sum = 0) := by norm_num
  exact ⟨h, (defuzz_failure_returns_fallback (1/2) [0, 0, 0] h).1⟩

/-- C9: adjusted accuracy is exactly `raw * (1 - dcr)`; in particular it is the
identity at `dcr = 0` and constantly `0` at `dcr = 1`. -/
theorem adjusted_accuracy_formula (raw dcr : ℚ) :
    calculate_adjusted_accuracy raw dcr = raw * (1 - dcr) ∧
      calculate_adjusted_accuracy raw 0 = raw ∧
      calculate_adjusted_accuracy raw 1 = 0 := by
  refine ⟨rfl, ?_, ?_⟩ <;> simp [calculate_adjusted_accuracy]

/-- C8: `calculate_average_error` returns `0` on empty input, and on two
nonempty lists it returns the mean of the pairwise absolute differences of
corresponding elements (the number of pairs being the shorter length), with no
division by zero. -/
theorem average_error_formula :
    calculate_average_error [] [] = 0 ∧
      ∀ g p : List ℚ, g ≠ [] → p ≠ [] →
        calculate_average_error g p =
          (List.zipWith (fun a b => |a - b|) g p).sum / ((min g.length p.length : ℕ) : ℚ) := by
  constructor
  · rfl
  · intro g p hg hp
    unfold calculate_average_error
    rw [if_neg (by simp [hg, hp])]
    have hz : (g.zip p).map (fun q => |q.1 - q.2|) = List.zipWith (fun a b => |a - b|) g p := by
      rw [List.zip_eq_zipWith, List.map_zipWith]
    rw [hz]
    simp [List.length_zipWith]

theorem average_error_formula_witness :
    (([(3 : ℚ), 5] : List ℚ) ≠ []) ∧ (([(1 : ℚ), 9] : List ℚ) ≠ []) ∧
      calculate_average_error [3, 5] [1, 9] =
        (List.zipWith (fun a b => |a - b|) [(3 : ℚ), 5] [(1 : ℚ), 9]).sum /
          ((min ([(3 : ℚ), 5] : List ℚ).length ([(1 : ℚ), 9] : List ℚ).length : ℕ) : ℚ) := by
  refine ⟨by simp, by simp, ?_⟩
  exact average_error_formula.2 [3, 5] [1, 9] (by simp) (by simp)

/-- C7: `calculate_correlation` returns exactly the sentinel `(0, 1)` whenever
either list has fewer than two samples, and otherwise returns exactly what the
external Pearson routine returns; it is total, so degenerate input never makes
it fail. -/
theorem correlation_sentinel (pearsonr : List ℚ → List ℚ → ℚ × ℚ)
    (xs ys : List ℚ) :
    (xs.length < 2 ∨ ys.length < 2 → calculate_correlation pearsonr xs ys = (0, 1)) ∧
      (2 ≤ xs.length → 2 ≤ ys.length →
        calculate_correlation pearsonr xs ys = pearsonr xs ys) := by
  constructor
  · intro h
    unfold calculate_correlation
    rw [if_pos h]
  · intro hx hy
    unfold calculate_correlation
    rw [if_neg (by omega)]

theorem correlation_sentinel_witness :
    (([(1 : ℚ)] : List ℚ).length < 2 ∨ ([] : List ℚ).length < 2) ∧
      calculate_correlation pzero [(1 : ℚ)] [] = (0, 1) := by
  have h : (([(1 : ℚ)] : List ℚ).length < 2 ∨ ([] : List ℚ).length < 2) := by simp
  exact ⟨h, (correlation_sentinel pzero [(1 : ℚ)] []).1 h⟩

/-! ## Threshold configuration (C6) -/

lemma range101_expand : List.range 101 = [0, 1, 2, 3, 4, 5, 6, 7, 8, 9, 10, 11, 12, 13, 14, 15, 16, 17, 18, 19, 20, 21, 22, 23, 24, 25, 26, 27, 28, 29, 30, 31, 32, 33, 34, 35, 36, 37, 38, 39, 40, 41, 42, 43, 44, 45, 46, 47, 48, 49, 50, 51, 52, 53, 54, 55, 56, 57, 58, 59, 60, 61, 62, 63, 64, 65, 66, 67, 68, 69, 70, 71, 72, 73, 74, 75, 76, 77, 78, 79, 80, 81, 82, 83, 84, 85, 86, 87, 88, 89, 90, 91, 92, 93, 94, 95, 96, 97, 98, 99, 100] := rfl

/-- The engine evaluated at the four scores `0.1`: full inference runs and the
result is the nonzero value `0.2096`. -/
lemma calculate_dcr_at_tenth : calculate_dcr (1/10) (1/10) (1/10) (1/10) = 131/625 := by
  have htn : ((10 : Int)).toNat = 10 := rfl
  have hc : clamp01 ((1 : ℚ)/10) = 1/10 := by norm_num [clamp01, qmax, qmin]
  have hmean : npMean [(1 : ℚ)/10, 1/10, 1/10, 1/10] = 1/10 := by norm_num [npMean]
  have hfz : fuzzify ((1 : ℚ)/10) (1/10) = ⟨1, 1/100, 1/100⟩ := by
    norm_num [fuzzify, interp_membership, qmax, lowMF, mediumMF, highMF, sampleMF, grid,
      range101_expand, trapmf, List.map_cons, List.map_nil, htn]
  simp only [calculate_dcr, hc, hmean]
  norm_num [qmax]
  rw [hfz]
  norm_num [applyRules, dcrFromAggregated, defuzzCentroid, npMax, qmin, qmax,
    negligibleMF, minorMF, moderateMF, significantMF, severeMF, sampleMF, grid,
    range101_expand, trimf, trapmf, List.map_cons, List.map_nil, List.zipWith, List.foldl,
    List.sum_cons, List.sum_nil, roundQ, roundHalfEven]

/-- C6 (counterexample): the claim that `calculate_dcr` obeys supplied threshold
configuration fails: with the alternate negligible threshold `0.5` supplied, the
configurable engine at scores `(0.1, 0.1, 0.1, 0.1)` short-circuits to `0`, but
the engine as implemented returns `0.2096 ≠ 0` — its thresholds are hardcoded
and any supplied configuration is ignored. -/
theorem thresholds_not_configurable :
    calculate_dcr_configured (1/2) (3/50) (1/1000) (1/10) (1/10) (1/10) (1/10) = 0 ∧
      calculate_dcr (1/10) (1/10) (1/10) (1/10) ≠ 0 := by
  constructor
  · have hc : clamp01 ((1 : ℚ)/10) = 1/10 := by norm_num [clamp01, qmax, qmin]
    have hmean : npMean [(1 : ℚ)/10, 1/10, 1/10, 1/10] = 1/10 := by norm_num [npMean]
    simp only [calculate_dcr_configured, hc, hmean]
    rw [if_pos (by norm_num)]
  · rw [calculate_dcr_at_tenth]
    norm_num

/-- C6 (amended): the three thresholds are hardcoded constants of the engine —
`calculate_dcr` coincides definitionally with the spec's configurable engine
instantiated at exactly `(0.02, 0.06, 0.001)`, and at no other configuration. -/
theorem engine_equals_default_configuration (s1 s2 s3 s4 : ℚ) :
    calculate_dcr s1 s2 s3 s4 =
      calculate_dcr_configured (1/50) (3/50) (1/1000) s1 s2 s3 s4 := rfl

/-! ## Row processing (C4, C5, C10) -/

lemma lastBaseline_append (pre : List Row) (r : Row) (m : String) :
    lastBaseline (pre ++ [r]) m =
      if isBaselineFor m r then some (rowAdj r) else lastBaseline pre m := by
  unfold lastBaseline
  rw [List.filter_append]
  by_cases hb : isBaselineFor m r
  · rw [if_pos hb]
    simp [List.filter_cons, hb, List.getLast?_concat]
  · rw [if_neg hb]
    simp [List.filter_cons, hb]

lemma foldl_processRow_char (rest : List Row) :
    ∀ (st : ProcState) (pre : List Row),
      (∀ m, lookupGT st.ground_truths m = lastBaseline pre m) →
      ((rest.foldl processRow st).results = st.results ++ specResultsAux pre rest ∧
       (rest.foldl processRow st).gt_list = st.gt_list ++ (specPairsAux pre rest).map Prod.fst ∧
       (rest.foldl processRow st).pred_list = st.pred_list ++ (specPairsAux pre rest).map Prod.snd ∧
       (rest.foldl processRow st).dcr_values = st.dcr_values ++ rest.map rowDCR ∧
       (rest.foldl processRow st).raw_acc_values = st.raw_acc_values ++ rest.map Row.acc) := by
  induction rest with
  | nil =>
      intro st pre hinv
      simp [specResultsAux, specPairsAux]
  | cons r rs ih =>
      intro st pre hinv
      rw [List.foldl_cons]
      by_cases hb : r.bdc_level = 0
      · have hstep : processRow st r =
            ⟨st.results ++ [mkRecord pre r], (r.model, rowAdj r) :: st.ground_truths,
             st.gt_list, st.pred_list,
             st.dcr_values ++ [rowDCR r], st.raw_acc_values ++ [r.acc]⟩ := by
          simp [processRow, mkRecord, specDelta, rowDCR, rowAdj, hb]
        have hinv2 : ∀ m,
            lookupGT (processRow st r).ground_truths m = lastBaseline (pre ++ [r]) m := by
          intro m
          rw [hstep, lastBaseline_append]
          by_cases hm : r.model = m
          · simp [lookupGT, isBaselineFor, hb, hm]
          · simp [lookupGT, isBaselineFor, hb, hm, hinv m]
        obtain ⟨h1, h2, h3, h4, h5⟩ := ih (processRow st r) (pre ++ [r]) hinv2
        rw [hstep] at h1 h2 h3 h4 h5 ⊢
        refine ⟨?_, ?_, ?_, ?_, ?_⟩ <;>
          simp [h1, h2, h3, h4, h5, specResultsAux, specPairsAux, hb, List.append_assoc]
      · cases hlk : lookupGT st.ground_truths r.model with
        | some b =>
            have hlb : lastBaseline pre r.model = some b := by rw [← hinv]; exact hlk
            have hstep : processRow st r =
                ⟨st.results ++ [mkRecord pre r], st.ground_truths,
                 st.gt_list ++ [b], st.pred_list ++ [rowAdj r],
                 st.dcr_values ++ [rowDCR r], st.raw_acc_values ++ [r.acc]⟩ := by
              simp [processRow, mkRecord, specDelta, rowDCR, rowAdj, hb, hlk, hlb,
                calculate_delta]
            have hinv2 : ∀ m,
                lookupGT (processRow st r).ground_truths m = lastBaseline (pre ++ [r]) m := by
              intro m
              rw [hstep, lastBaseline_append]
              have hf : isBaselineFor m r = false := by simp [isBaselineFor, hb]
              rw [hf]
              simpa using hinv m
            obtain ⟨h1, h2, h3, h4, h5⟩ := ih (processRow st r) (pre ++ [r]) hinv2
            rw [hstep] at h1 h2 h3 h4 h5 ⊢
            refine ⟨?_, ?_, ?_, ?_, ?_⟩ <;>
              simp [h1, h2, h3, h4, h5, specResultsAux, specPairsAux, hb, hlb,
                List.append_assoc]
        | none =>
            have hlb : lastBaseline pre r.model = none := by rw [← hinv]; exact hlk
            have hstep : processRow st r =
                ⟨st.results ++ [mkRecord pre r], st.ground_truths,
                 st.gt_list, st.pred_list,
                 st.dcr_values ++ [rowDCR r], st.raw_acc_values ++ [r.acc]⟩ := by
              simp [processRow, mkRecord, specDelta, rowDCR, rowAdj, hb, hlk, hlb]
            have hinv2 : ∀ m,
                lookupGT (processRow st r).ground_truths m = lastBaseline (pre ++ [r]) m := by
              intro m
              rw [hstep, lastBaseline_append]
              have hf : isBaselineFor m r = false := by simp [isBaselineFor, hb]
              rw [hf]
              simpa using hinv m
            obtain ⟨h1, h2, h3, h4, h5⟩ := ih (processRow st r) (pre ++ [r]) hinv2
            rw [hstep] at h1 h2 h3 h4 h5 ⊢
            refine ⟨?_, ?_, ?_, ?_, ?_⟩ <;>
              simp [h1, h2, h3, h4, h5, specResultsAux, specPairsAux, hb, hlb,
                List.append_assoc]

lemma specResultsAux_length (rest : List Row) :
    ∀ pre : List Row, (specResultsAux pre rest).length = rest.length := by
  induction rest with
  | nil => intro pre; rfl
  | cons r rs ih => intro pre; simp [specResultsAux, ih]

lemma specResultsAux_getD (rest : List Row) :
    ∀ (pre : List Row) (i : ℕ), i < rest.length →
      (specResultsAux pre rest).getD i default =
        mkRecord (pre ++ rest.take i) (rest.getD i default) := by
  induction rest with
  | nil => intro pre i h; simp at h
  | cons r rs ih =>
      intro pre i h
      cases i with
      | zero => simp [specResultsAux]
      | succ n =>
          have hn : n < rs.length := by simpa using h
          simp only [specResultsAux, List.getD_cons_succ, List.take_succ_cons]
          rw [ih (pre ++ [r]) n hn]
          simp [List.append_assoc]

lemma avg_error_pairs (pairs : List (ℚ × ℚ)) :
    calculate_average_error (pairs.map Prod.fst) (pairs.map Prod.snd) =
      if pairs = [] then 0
      else (pairs.map (fun p => |p.1 - p.2|)).sum / (pairs.length : ℚ) := by
  unfold calculate_average_error
  by_cases hp : pairs = []
  · simp [hp]
  · rw [if_neg (by simp [hp]), if_neg hp]
    have hzip : (pairs.map Prod.fst).zip (pairs.map Prod.snd) = pairs := by
      rw [List.zip_map']
      simp
    rw [hzip]
    simp

/-- C4: `process_experiment_data` yields exactly one result record per input
row, in input order; the `i`-th record carries that row's model, level, DCR,
raw and adjusted accuracy, and its delta is `0` on a baseline (`bdc_level = 0`)
row, the absolute difference from the model's most recently recorded baseline
adjusted accuracy when one exists, and `0` when the model has no baseline yet. -/
theorem process_records_per_row (pearsonr : List ℚ → List ℚ → ℚ × ℚ)
    (data : List Row) (i : ℕ) (h : i < data.length) :
    (process_experiment_data pearsonr data).results.length = data.length ∧
      (process_experiment_data pearsonr data).results.getD i default =
        mkRecord (data.take i) (data.getD i default) := by
  obtain ⟨h1, _, _, _, _⟩ :=
    foldl_processRow_char data initState [] (fun m => rfl)
  have hres : (process_experiment_data pearsonr data).results = specResultsAux [] data := by
    simp only [process_experiment_data]
    rw [h1]
    simp [initState]
  rw [hres]
  refine ⟨specResultsAux_length data [], ?_⟩
  rw [specResultsAux_getD data [] i h]
  simp

theorem process_records_per_row_witness :
    0 < dataW.length ∧
      ((process_experiment_data pzero dataW).results.length = dataW.length ∧
        (process_experiment_data pzero dataW).results.getD 0 default =
          mkRecord (dataW.take 0) (dataW.getD 0 default)) := by
  refine ⟨by simp [dataW], process_records_per_row pzero dataW 0 (by simp [dataW])⟩

/-- C5: the returned `average_error` is the mean of `|baseline − current|` over
exactly the contaminated rows whose model already had a baseline, pooled across
all models (and `0` when there are no such rows); `correlation` and `p_value`
are the external Pearson routine's answer on the `(dcr, raw accuracy)` pairs of
all rows of all models combined, in row order. -/
theorem process_statistics_global (pearsonr : List ℚ → List ℚ → ℚ × ℚ)
    (data : List Row) :
    (process_experiment_data pearsonr data).average_error =
      (if specPairsAux [] data = [] then 0
       else ((specPairsAux [] data).map (fun p => |p.1 - p.2|)).sum /
         ((specPairsAux [] data).length : ℚ)) ∧
      ((process_experiment_data pearsonr data).correlation,
        (process_experiment_data pearsonr data).p_value) =
        calculate_correlation pearsonr (data.map rowDCR) (data.map Row.acc) := by
  obtain ⟨_, h2, h3, h4, h5⟩ :=
    foldl_processRow_char data initState [] (fun m => rfl)
  constructor
  · simp only [process_experiment_data]
    rw [h2, h3]
    simp only [initState, List.nil_append]
    exact avg_error_pairs (specPairsAux [] data)
  · simp only [process_experiment_data]
    rw [h4, h5]
    simp [initState]

/-- C10: a later baseline row overwrites the stored baseline of its model: with
two baseline rows (accuracies `a` then `b`) followed by a contaminated row
(accuracy `c`) of the same model, the second baseline row's delta is `0` and
the contaminated row's delta is `|c - b|`, measured against the most recent
baseline, not the first. -/
theorem process_baseline_overwrite (pearsonr : List ℚ → List ℚ → ℚ × ℚ)
    (a b c : ℚ) (n : ℤ) (hn : n ≠ 0) :
    ((process_experiment_data pearsonr
        [⟨0, "M", 0, 0, 0, 0, a⟩, ⟨0, "M", 0, 0, 0, 0, b⟩,
         ⟨n, "M", 0, 0, 0, 0, c⟩]).results.getD 1 default).delta = 0 ∧
      ((process_experiment_data pearsonr
        [⟨0, "M", 0, 0, 0, 0, a⟩, ⟨0, "M", 0, 0, 0, 0, b⟩,
         ⟨n, "M", 0, 0, 0, 0, c⟩]).results.getD 2 default).delta = |c - b| := by
  have hc0 : clamp01 0 = 0 := by norm_num [clamp01, qmax, qmin]
  have hdcr0 : calculate_dcr 0 0 0 0 = 0 := by
    simp only [calculate_dcr, hc0]
    rw [if_pos (by norm_num [npMean])]
  constructor <;>
    simp [process_experiment_data, processRow, initState, lookupGT, hdcr0, hn,
      calculate_adjusted_accuracy, calculate_delta]

theorem process_baseline_overwrite_witness :
    ((1 : ℤ) ≠ 0) ∧
      (((process_experiment_data pzero
          [⟨0, "M", 0, 0, 0, 0, (5 : ℚ)⟩, ⟨0, "M", 0, 0, 0, 0, (7 : ℚ)⟩,
           ⟨1, "M", 0, 0, 0, 0, (4 : ℚ)⟩]).results.getD 1 default).delta = 0 ∧
        ((process_experiment_data pzero
          [⟨0, "M", 0, 0, 0, 0, (5 : ℚ)⟩, ⟨0, "M", 0, 0, 0, 0, (7 : ℚ)⟩,
           ⟨1, "M", 0, 0, 0, 0, (4 : ℚ)⟩]).results.getD 2 default).delta = |(4 : ℚ) - 7|) := by
  exact ⟨by norm_num, process_baseline_overwrite pzero 5 7 4 1 (by norm_num)⟩
